import Mathlib

/-!
Verification of the beacon-decoding and liveness subsystem of
lywsd03mmc-exporter (Go).  The Go source is shallowly embedded: byte
slices become `List Nat` (each element < 256 where it comes off the
wire), Go's `(value, error)` returns become a pair with an `Option
String` error component (the zero record accompanies every error, as in
Go), Go's float64 arithmetic on decoded fields becomes exact `ℚ`
arithmetic (all divisors are powers of ten), and the side effects of
the handlers (gauge publications, liveness bumps, log lines) become an
explicit event list.  Go indexing and slicing, which panic when out of
bounds, are embedded as `Option`-valued accessors so that bounds-safety
claims are statable: a `none` result of a handler marks a run-time
panic.
-/

/-- Uppercase hexadecimal digit for a value below 16
(`fmt.Sprintf("%X", ...)` convention). -/
def hexDigit (n : Nat) : Char :=
  if n < 10 then Char.ofNat (48 + n) else Char.ofNat (55 + n)

/-- Two uppercase hexadecimal digits of one byte (`%02X`). -/
def byteHex (b : Nat) : String :=
  String.mk [hexDigit (b / 16 % 16), hexDigit (b % 16)]

/-- Model of `fmt.Sprintf("%X", bytes)`: each byte as two uppercase hex digits,
concatenated. -/
def bytesHex : List Nat → String
  | [] => ""
  | b :: bs => byteHex b ++ bytesHex bs

/-- Model of `binary.BigEndian.Uint16` of two bytes. -/
def be16 (hi lo : Nat) : Nat := hi * 256 + lo

/-- Model of `binary.LittleEndian.Uint16` of two bytes. -/
def le16 (lo hi : Nat) : Nat := lo + hi * 256

/-- Go indexing `l[i]`: `none` models the run-time panic when `i` is out
of bounds. -/
def idx (l : List Nat) (i : Nat) : Option Nat := l[i]?

/-- Go slicing `l[a:b]`: `none` models the run-time panic unless
`a ≤ b ≤ len(l)`. -/
def slc (l : List Nat) (a b : Nat) : Option (List Nat) :=
  if a ≤ b ∧ b ≤ l.length then some ((l.drop a).take (b - a)) else none

/-- The function `decodeSign` from lywsd03mmc-exporter.go: reinterpret a 16-bit
unsigned value as signed. -/
def decodeSign (i : Nat) : Int :=
  if i < 32768 then (i : Int) else (i : Int) - 65536

/-- The measurement record `sensorData` from lywsd03mmc-exporter.go. -/
structure sensorData where
  mac : String
  temp : ℚ
  hum : ℚ
  batp : ℚ
  batv : ℚ
  frame : ℚ
deriving DecidableEq, Repr

/-- The Go zero value `sensorData{}`, returned alongside every decode
error. -/
def zeroSensorData : sensorData :=
  { mac := "", temp := 0, hum := 0, batp := 0, batv := 0, frame := 0 }

/-- The function `decodeATCData` from lywsd03mmc-exporter.go (Format A, 13 bytes):
address in natural order at bytes 0–5, big-endian signed temperature in
tenths at 6–7, humidity byte 8, battery percent byte 9, big-endian
millivolts at 10–11, frame counter byte 12.  Errors return the zero
record together with the message, as the Go function does. -/
def decodeATCData (data : List Nat) (frameMac : String) :
    sensorData × Option String :=
  if data.length ≠ 13 then
    (zeroSensorData, some ("invalid data length " ++ toString data.length))
  else
    let mac := bytesHex (data.take 6)
    if mac ≠ frameMac then
      (zeroSensorData, some ("MAC mismatch " ++ mac ++ " != " ++ frameMac))
    else
      ({ mac := mac
         temp := (decodeSign (be16 (data.getD 6 0) (data.getD 7 0)) : ℚ) / 10
         hum := (data.getD 8 0 : ℚ)
         batp := (data.getD 9 0 : ℚ)
         batv := (be16 (data.getD 10 0) (data.getD 11 0) : ℚ) / 1000
         frame := (data.getD 12 0 : ℚ) }, none)

/-- The address string built by `decodePVVXData`'s loop
(`for i := 5; i >= 0; i--`): bytes 5,4,3,2,1,0 as `%02X`. -/
def pvvxMac (data : List Nat) : String :=
  bytesHex ((data.take 6).reverse)

/-- The function `decodePVVXData` from lywsd03mmc-exporter.go (Format B, 15 bytes):
address reversed at bytes 0–5, little-endian signed temperature in
hundredths at 6–7, little-endian signed humidity in hundredths at 8–9,
little-endian millivolts at 10–11, battery percent byte 12, frame
counter byte 13; byte 14 is the ignored flags byte. -/
def decodePVVXData (data : List Nat) (frameMac : String) :
    sensorData × Option String :=
  if data.length ≠ 15 then
    (zeroSensorData, some ("invalid data length " ++ toString data.length))
  else
    let mac := pvvxMac data
    if mac ≠ frameMac then
      (zeroSensorData, some ("MAC mismatch " ++ mac ++ " != " ++ frameMac))
    else
      ({ mac := mac
         temp := (decodeSign (le16 (data.getD 6 0) (data.getD 7 0)) : ℚ) / 100
         hum := (decodeSign (le16 (data.getD 8 0) (data.getD 9 0)) : ℚ) / 100
         batp := (data.getD 12 0 : ℚ)
         batv := (le16 (data.getD 10 0) (data.getD 11 0) : ℚ) / 1000
         frame := (data.getD 13 0 : ℚ) }, none)

/-- The Format-A payload of the spec's concrete scenario 1. -/
def scenarioA : List Nat :=
  [0x4c, 0x59, 0x57, 0x53, 0x44, 0x30, 0x01, 0x0c, 0x35, 0x64, 0x0b,
    0xb8, 0x7b]

/-- The Format-B payload of the spec's concrete scenario 3. -/
def scenarioB : List Nat :=
  [0x30, 0x44, 0x53, 0x57, 0x59, 0x4c, 0x78, 0x0a, 0xb4, 0x14, 0xb8,
    0x0b, 0x64, 0x7b, 0x00]

/-- The record both scenarios decode to. -/
def scenarioRecord : sensorData :=
  { mac := "4C5957534430", temp := 26.8, hum := 53, batp := 100,
    batv := 3, frame := 123 }

/-- Expiry used after a plaintext (ATC / PVVX) decode:
`2.5 * 10 * time.Second` in nanoseconds. -/
def ExpiryAtc : Nat := 25 * 1000000000

/-- Expiry used after an encrypted (stock firmware) decode:
`2.5 * 10 * time.Minute` in nanoseconds. -/
def ExpiryStock : Nat := 25 * 60 * 1000000000

/-- Expiry used by the connection-polling decoders:
`2.5 * 10 * time.Second` in nanoseconds. -/
def ExpiryConn : Nat := 25 * 1000000000

/-- Observable side effects of the beacon handlers: liveness bumps,
gauge publications, and log lines. -/
inductive DEvent where
  | bump (mac : String) (expiry : Nat)
  | temp (mac : String) (v : ℚ)
  | hum (mac : String) (v : ℚ)
  | batp (mac : String) (v : ℚ)
  | batv (mac : String) (v : ℚ)
  | frame (mac : String) (v : ℚ)
  | rssi (mac : String) (v : Int)
  | log (msg : String)
deriving DecidableEq, Repr

/-- The effects `registerData` performs after a successful decode, in
source order: bump, temperature, humidity, battery percent, voltage,
frame gauge, RSSI gauge. -/
def pubEvents (sd : sensorData) (rssi : Int) : List DEvent :=
  [DEvent.bump sd.mac ExpiryAtc,
   DEvent.temp sd.mac sd.temp,
   DEvent.hum sd.mac sd.hum,
   DEvent.batp sd.mac sd.batp,
   DEvent.batv sd.mac sd.batv,
   DEvent.frame sd.mac sd.frame,
   DEvent.rssi sd.mac rssi]

/-- The function `registerData` from lywsd03mmc-exporter.go: dispatch on payload
length (13 → Format A, 15 → Format B, otherwise log and drop), log and
drop decoder errors, publish on success. -/
def registerData (data : List Nat) (frameMac : String) (rssi : Int) :
    List DEvent :=
  if data.length = 13 then
    match decodeATCData data frameMac with
    | (sd, none) => pubEvents sd rssi
    | (_, some e) => [DEvent.log e]
  else if data.length = 15 then
    match decodePVVXData data frameMac with
    | (sd, none) => pubEvents sd rssi
    | (_, some e) => [DEvent.log e]
  else
    [DEvent.log ("unknown data length " ++ toString data.length)]

/-- CCM tag length passed to `aesccm.NewCCM(aes, 4, 12)`. -/
def ccmTagSize : Nat := 4

/-- CCM nonce-length parameter passed to `aesccm.NewCCM(aes, 4, 12)`. -/
def ccmNonceSize : Nat := 12

/-- The associated data `[]byte{0x11}` passed to `ccm.Open`. -/
def ccmAad : List Nat := [0x11]

/-- The nonce `decryptData` assembles: `data[5:11]` (reversed address)
++ `data[2:5]` (sensor type) ++ `data[len-7:len-4]` (counter).  `none`
models a slice panic. -/
def nonceParts (data : List Nat) : Option (List Nat) := do
  let rmac ← slc data 5 11
  let stype ← slc data 2 5
  let ctr ← slc data (data.length - 7) (data.length - 4)
  pure (rmac ++ stype ++ ctr)

/-- The ciphertext `decryptData` assembles: `data[11:len-7]` (payload)
++ `data[len-4:]` (token). -/
def ciphertextParts (data : List Nat) : Option (List Nat) := do
  let payload ← slc data 11 (data.length - 7)
  let token ← slc data (data.length - 4) data.length
  pure (payload ++ token)

/-- The six reversed-address bytes `data[10], ..., data[5]` read by
`decryptData`; `none` models an index panic. -/
def revMacBytes (data : List Nat) : Option (List Nat) := do
  let b10 ← idx data 10
  let b9 ← idx data 9
  let b8 ← idx data 8
  let b7 ← idx data 7
  let b6 ← idx data 6
  let b5 ← idx data 5
  pure [b10, b9, b8, b7, b6, b5]

/-- The `dst[0] == 0x04` branch of the inner dispatch in
`decryptData`: temperature from `dst[3:5]`, little-endian tenths.  A
false condition touches nothing; a true condition panics (`none`) when
an access is out of bounds. -/
def dispTempBranch (mac : String) (dst : List Nat) (t0 : Nat) :
    Option (List DEvent) :=
  if t0 = 0x04 then
    match idx dst 3, idx dst 4 with
    | some b3, some b4 => some [DEvent.temp mac ((le16 b3 b4 : ℚ) / 10)]
    | _, _ => none
  else some []

/-- The `dst[0] == 0x06` branch: humidity from `dst[3:5]`. -/
def dispHumBranch (mac : String) (dst : List Nat) (t0 : Nat) :
    Option (List DEvent) :=
  if t0 = 0x06 then
    match idx dst 3, idx dst 4 with
    | some b3, some b4 => some [DEvent.hum mac ((le16 b3 b4 : ℚ) / 10)]
    | _, _ => none
  else some []

/-- The `dst[0] == 0x0A` branch: battery percent from `dst[3]`. -/
def dispBatpBranch (mac : String) (dst : List Nat) (t0 : Nat) :
    Option (List DEvent) :=
  if t0 = 0x0A then
    match idx dst 3 with
    | some b3 => some [DEvent.batp mac (b3 : ℚ)]
    | none => none
  else some []

/-- The `dst[0] == 0x0d && dst[2] == 0x04` branch: combined temperature
`dst[3:5]` and humidity `dst[5:7]`, both little-endian tenths.  Go's
`&&` short-circuits, so `dst[2]` is read only when `dst[0] == 0x0d`. -/
def dispComboBranch (mac : String) (dst : List Nat) (t0 : Nat) :
    Option (List DEvent) :=
  if t0 = 0x0D then
    match idx dst 2 with
    | none => none
    | some t2 =>
      if t2 = 0x04 then
        match idx dst 3, idx dst 4, idx dst 5, idx dst 6 with
        | some b3, some b4, some b5, some b6 =>
          some [DEvent.temp mac ((le16 b3 b4 : ℚ) / 10),
                DEvent.hum mac ((le16 b5 b6 : ℚ) / 10)]
        | _, _, _, _ => none
      else some []
  else some []

/-- Dispatch on the first byte of the inner (decrypted or fast-path)
payload, from `decryptData`: the four tag branches in source order; any
other tag falls through all of them silently.  `none` models an
out-of-bounds panic in whichever branch ran. -/
def innerDispatchChecked (mac : String) (dst : List Nat) :
    Option (List DEvent) :=
  match idx dst 0 with
  | none => none
  | some t0 =>
    match dispTempBranch mac dst t0, dispHumBranch mac dst t0,
        dispBatpBranch mac dst t0, dispComboBranch mac dst t0 with
    | some e1, some e2, some e3, some e4 => some (e1 ++ e2 ++ e3 ++ e4)
    | _, _, _, _ => none

/-- The step of `decryptData` that obtains the inner payload: the
`data[12] == 0x10` unencrypted fast path takes `data[11:]` directly;
otherwise the key is looked up (a missing key is a logged skip), the
ciphertext and nonce are assembled and `ccm.Open` is called (a failed
authentication is a logged skip).  `Sum.inl` carries the events of an
early return, `Sum.inr` the inner payload, and `none` a panic. -/
def decryptStep
    (ccmOpen : List Nat → List Nat → List Nat → List Nat →
      Option (List Nat))
    (keys : String → Option (List Nat)) (data : List Nat) (mac : String)
    (b12 : Nat) : Option (Sum (List DEvent) (List Nat)) :=
  if b12 = 0x10 then
    (slc data 11 data.length).map Sum.inr
  else
    match keys mac with
    | none =>
      some (Sum.inl
        [DEvent.log ("no key for MAC " ++ mac ++ ", skipped")])
    | some key =>
      match ciphertextParts data, nonceParts data with
      | some ciphertext, some nonce =>
        match ccmOpen key nonce ciphertext ccmAad with
        | none => some (Sum.inl [DEvent.log "couldn't decrypt"])
        | some dst => some (Sum.inr dst)
      | _, _ => none

/-- The tail of `decryptData` after the address check: obtain the inner
payload via `decryptStep`, bump the liveness entry with `ExpiryStock`,
dispatch on the inner tag, and set the RSSI gauge. -/
def decryptPublish
    (ccmOpen : List Nat → List Nat → List Nat → List Nat →
      Option (List Nat))
    (keys : String → Option (List Nat)) (data : List Nat) (rssi : Int)
    (mac : String) (b12 : Nat) : Option (List DEvent) :=
  match decryptStep ccmOpen keys data mac b12 with
  | none => none
  | some (Sum.inl evs) => some evs
  | some (Sum.inr dst) =>
    match innerDispatchChecked mac dst with
    | none => none
    | some evs =>
      some (DEvent.bump mac ExpiryStock ::
        (evs ++ [DEvent.rssi mac rssi]))

/-- The function `decryptData` from the exporter (the copy embedded in
lywsd03mmc-exporter_test.go, which extends the copy in
lywsd03mmc-exporter.go with the `data[12] == 0x10` unencrypted fast
path and the 0x0D combined record): guard `len(data) >= 18`, extract
the reversed address `data[10]..data[5]` and compare its hex form with
the expected identifier (mismatch is a silent skip), then hand off to
`decryptStep` / `decryptPublish`.  The CCM primitive is a parameter; a
`none` result models an out-of-bounds panic. -/
def decryptData
    (ccmOpen : List Nat → List Nat → List Nat → List Nat →
      Option (List Nat))
    (keys : String → Option (List Nat)) (data : List Nat)
    (frameMac : String) (rssi : Int) : Option (List DEvent) :=
  if data.length < 11 + 3 + 4 then some [] else
  match revMacBytes data with
  | none => none
  | some mbytes =>
    if bytesHex mbytes ≠ frameMac then some [] else
    match idx data 12 with
    | none => none
    | some b12 => decryptPublish ccmOpen keys data rssi (bytesHex mbytes) b12

/-- The result of `strings.SplitN(line, " ", 2)`: `none` when the line
has no space (a one-element slice in Go), otherwise the part before the
first space and the rest. -/
def splitFirstSpace : List Char → Option (List Char × List Char)
  | [] => none
  | c :: rest =>
    if c = ' ' then some ([], rest)
    else
      match splitFirstSpace rest with
      | none => none
      | some (a, b) => some (c :: a, b)

/-- Model of `strings.TrimSpace` on the character list of a line. -/
def trimmed (cs : List Char) : List Char :=
  ((cs.dropWhile Char.isWhitespace).reverse.dropWhile
    Char.isWhitespace).reverse

/-- Model of `strings.HasPrefix(line, "#")`. -/
def startsWithHash : List Char → Bool
  | [] => false
  | c :: _ => c = '#'

/-- One hexadecimal digit accepted by Go's `hex.DecodeString`. -/
def hexVal (c : Char) : Option Nat :=
  if 48 ≤ c.toNat ∧ c.toNat ≤ 57 then some (c.toNat - 48)
  else if 65 ≤ c.toNat ∧ c.toNat ≤ 70 then some (c.toNat - 55)
  else if 97 ≤ c.toNat ∧ c.toNat ≤ 102 then some (c.toNat - 87)
  else none

/-- Model of `hex.DecodeString` on a character list: fails on a non-hex digit or
an odd length. -/
def hexDecodeList : List Char → Option (List Nat)
  | [] => some []
  | [_] => none
  | c1 :: c2 :: rest => do
      let hi ← hexVal c1
      let lo ← hexVal c2
      let r ← hexDecodeList rest
      pure ((hi * 16 + lo) :: r)

/-- Outcome of `loadKeys`' per-line processing. -/
inductive LineOutcome where
  | comment
  | installed (mac : String) (key : List Nat)
  | skipped
  | panics
deriving DecidableEq, Repr

/-- One iteration of the `loadKeys` scanner loop from
lywsd03mmc-exporter.go: trim the line, skip `#` comments, split at the
first space, check the field lengths, hex-decode the key, install or
skip with a warning.  Go's `||` short-circuits, so in
`len(fields[0]) != 12 || len(fields[1]) != 32` the term `fields[1]` is
evaluated — and panics on a one-field split — exactly when
`len(fields[0]) == 12`. -/
def processLine (rawLine : String) : LineOutcome :=
  let line := trimmed rawLine.data
  if startsWithHash line then LineOutcome.comment
  else
    match splitFirstSpace line with
    | none =>
      if line.length ≠ 12 then LineOutcome.skipped
      else LineOutcome.panics
    | some (f0, f1) =>
      if f0.length ≠ 12 then LineOutcome.skipped
      else if f1.length ≠ 32 then LineOutcome.skipped
      else
        match hexDecodeList f1 with
        | none => LineOutcome.skipped
        | some key => LineOutcome.installed (String.mk f0) key

theorem getD_drop_take (l : List Nat) (a k i : Nat) (h : i < k) :
    ((l.drop a).take k).getD i 0 = l.getD (a + i) 0 := by
  simp [List.getD_eq_getElem?_getD, List.getElem?_take, List.getElem?_drop, h]

theorem getD_append_left (l m : List Nat) (i : Nat) (h : i < l.length) :
    (l ++ m).getD i 0 = l.getD i 0 := by
  simp [List.getD_eq_getElem?_getD, List.getElem?_append, h]

theorem getD_append_right (l m : List Nat) (i : Nat) :
    (l ++ m).getD (l.length + i) 0 = m.getD i 0 := by
  simp [List.getD_eq_getElem?_getD, List.getElem?_append]

/-- C1: the 13-byte Format-A scenario payload with expected identifier
4C5957534430 decodes without error to temperature 26.8, humidity 53,
battery percent 100, battery voltage 3.0 and frame 123, and the 15-byte
Format-B scenario payload (address bytes stored reversed) with the same
expected identifier decodes to exactly the same record. -/
theorem c1_concrete_scenarios :
    decodeATCData scenarioA "4C5957534430" = (scenarioRecord, none) ∧
    decodePVVXData scenarioB "4C5957534430" = (scenarioRecord, none) := by
  have hA : bytesHex [0x4c, 0x59, 0x57, 0x53, 0x44, 0x30] =
      "4C5957534430" := by decide
  constructor
  · simp [decodeATCData, scenarioA, scenarioRecord, hA]
    norm_num [be16, decodeSign]
  · simp [decodePVVXData, pvvxMac, scenarioB, scenarioRecord, hA]
    norm_num [le16, decodeSign]

/-- C2: for a valid-length payload whose embedded address disagrees with
the expected identifier, each plaintext decoder returns the MAC-mismatch
error together with the zero record — never a partial record. -/
theorem c2_mac_mismatch_rejected (data : List Nat) (fm : String) :
    (data.length = 13 → bytesHex (data.take 6) ≠ fm →
      decodeATCData data fm =
        (zeroSensorData,
          some ("MAC mismatch " ++ bytesHex (data.take 6) ++ " != " ++ fm))) ∧
    (data.length = 15 → pvvxMac data ≠ fm →
      decodePVVXData data fm =
        (zeroSensorData,
          some ("MAC mismatch " ++ pvvxMac data ++ " != " ++ fm))) := by
  constructor
  · intro h13 hne
    simp [decodeATCData, h13, hne]
  · intro h15 hne
    simp [decodePVVXData, h15, hne]

theorem c2_mac_mismatch_rejected_witness :
    decodeATCData (List.replicate 13 0) "X" =
      (zeroSensorData,
        some ("MAC mismatch " ++ bytesHex ((List.replicate 13 0).take 6) ++
          " != " ++ "X")) :=
  (c2_mac_mismatch_rejected (List.replicate 13 0) "X").1 (by decide) (by decide)

/-- C3: any payload length other than 13 is rejected by the Format-A
decoder and other than 15 by the Format-B decoder with the
invalid-length error; the dispatcher routes length 13 only through
Format A and length 15 only through Format B, and any other length
yields exactly one log event — no publication and no bump. -/
theorem c3_length_dispatch (data : List Nat) (fm : String) (rssi : Int) :
    (data.length ≠ 13 →
      (decodeATCData data fm).2 =
        some ("invalid data length " ++ toString data.length)) ∧
    (data.length ≠ 15 →
      (decodePVVXData data fm).2 =
        some ("invalid data length " ++ toString data.length)) ∧
    (data.length = 13 → (decodeATCData data fm).2 = none →
      registerData data fm rssi = pubEvents (decodeATCData data fm).1 rssi) ∧
    (data.length = 15 → (decodePVVXData data fm).2 = none →
      registerData data fm rssi = pubEvents (decodePVVXData data fm).1 rssi) ∧
    (data.length ≠ 13 → data.length ≠ 15 →
      registerData data fm rssi =
        [DEvent.log ("unknown data length " ++ toString data.length)]) := by
  refine ⟨?_, ?_, ?_, ?_, ?_⟩
  · intro h
    simp [decodeATCData, h]
  · intro h
    simp [decodePVVXData, h]
  · intro h13 hok
    rcases hd : decodeATCData data fm with ⟨sd, e⟩
    rw [hd] at hok
    simp only at hok
    subst hok
    simp [registerData, h13, hd]
  · intro h15 hok
    rcases hd : decodePVVXData data fm with ⟨sd, e⟩
    rw [hd] at hok
    simp only at hok
    subst hok
    have h13 : data.length ≠ 13 := by omega
    simp [registerData, h13, h15, hd]
  · intro h13 h15
    simp [registerData, h13, h15]

theorem c3_length_dispatch_witness :
    (decodeATCData (List.replicate 12 0) "").2 =
      some ("invalid data length " ++ toString (List.replicate 12 0).length) :=
  (c3_length_dispatch (List.replicate 12 0) "" 0).1 (by decide)

/-- C4 counterexample: the 16-bit value 0x0C35 (decimal 3125) does not
decode to temperature 26.8 — `decodeSign` leaves it at 3125, which is
312.5 at tenths scale; the scenario payload's big-endian temperature
field `data[6:8]` is 0x010C = 268, not 0x0C35. -/
theorem c4_counterexample :
    decodeSign 0x0C35 = 3125 ∧ (decodeSign 0x0C35 : ℚ) / 10 ≠ 26.8 ∧
    be16 (scenarioA.getD 6 0) (scenarioA.getD 7 0) = 0x010C := by
  refine ⟨by decide, ?_, by decide⟩
  norm_num [decodeSign]

/-- C4 (amended): for every 16-bit value, `decodeSign` returns the value
itself below 32768 and value − 65536 at or above it; the scenario's
temperature field is 0x010C = 268, which decodes with no sign flip to
26.8 at tenths scale (0x0C35 = 3125 itself would give 312.5), and
0xFF9C = 65436 decodes to −100, i.e. −10.0 at tenths scale. -/
theorem c4_sign_convention (i : Nat) (h : i < 65536) :
    decodeSign i = (if i < 32768 then (i : Int) else (i : Int) - 65536) ∧
    decodeSign 268 = 268 ∧ (decodeSign 268 : ℚ) / 10 = 26.8 ∧
    decodeSign 3125 = 3125 ∧ (decodeSign 3125 : ℚ) / 10 = 312.5 ∧
    decodeSign 65436 = -100 ∧ (decodeSign 65436 : ℚ) / 10 = -10 := by
  refine ⟨rfl, by decide, ?_, by decide, ?_, by decide, ?_⟩ <;>
    norm_num [decodeSign]

theorem c4_sign_convention_witness : decodeSign 268 = 268 :=
  ((c4_sign_convention 3125 (by decide)).2).1

/-- C9: the `loadKeys` line handling — comments and malformed lines with a
wrong-length first field, a wrong-length key field, or a non-hex key
are skipped, and a well-formed line installs the 16-byte key; but a
line of exactly 12 characters with no space separator makes the Go code
index `fields[1]` on a one-element slice and panic, which is fatal to
startup, contradicting the claim that malformed lines are never
fatal. -/
theorem c9_loadkeys_line_outcomes :
    processLine "" = LineOutcome.skipped ∧
    processLine "# comment" = LineOutcome.comment ∧
    processLine "4C59575344 00112233445566778899AABBCCDDEEFF" =
      LineOutcome.skipped ∧
    processLine "4C5957534430 0011223344" = LineOutcome.skipped ∧
    processLine "4C5957534430 zz112233445566778899AABBCCDDEEFF" =
      LineOutcome.skipped ∧
    processLine "4C5957534430 00112233445566778899AABBCCDDEEFF" =
      LineOutcome.installed "4C5957534430"
        [0x00, 0x11, 0x22, 0x33, 0x44, 0x55, 0x66, 0x77, 0x88, 0x99, 0xAA,
          0xBB, 0xCC, 0xDD, 0xEE, 0xFF] ∧
    processLine "4C5957534430" = LineOutcome.panics := by decide

theorem idx_eq_getD (l : List Nat) (i : Nat) (h : i < l.length) :
    idx l i = some (l.getD i 0) := by
  simp [idx, List.getElem?_eq_getElem h, List.getD_eq_getElem?_getD]

theorem mem_dispTempBranch {mac : String} {dst : List Nat} {t0 : Nat}
    {evs : List DEvent} (h : dispTempBranch mac dst t0 = some evs)
    {e : DEvent} (he : e ∈ evs) : ∃ m v, e = DEvent.temp m v := by
  unfold dispTempBranch at h
  split at h
  · split at h
    all_goals
      first
      | exact Option.noConfusion h
      | (injection h with h
         subst h
         simp at he
         exact ⟨_, _, he⟩)
  · simp_all

theorem mem_dispHumBranch {mac : String} {dst : List Nat} {t0 : Nat}
    {evs : List DEvent} (h : dispHumBranch mac dst t0 = some evs)
    {e : DEvent} (he : e ∈ evs) : ∃ m v, e = DEvent.hum m v := by
  unfold dispHumBranch at h
  split at h
  · split at h
    all_goals
      first
      | exact Option.noConfusion h
      | (injection h with h
         subst h
         simp at he
         exact ⟨_, _, he⟩)
  · simp_all

theorem mem_dispBatpBranch {mac : String} {dst : List Nat} {t0 : Nat}
    {evs : List DEvent} (h : dispBatpBranch mac dst t0 = some evs)
    {e : DEvent} (he : e ∈ evs) : ∃ m v, e = DEvent.batp m v := by
  unfold dispBatpBranch at h
  split at h
  · split at h
    all_goals
      first
      | exact Option.noConfusion h
      | (injection h with h
         subst h
         simp at he
         exact ⟨_, _, he⟩)
  · simp_all

theorem mem_dispComboBranch {mac : String} {dst : List Nat} {t0 : Nat}
    {evs : List DEvent} (h : dispComboBranch mac dst t0 = some evs)
    {e : DEvent} (he : e ∈ evs) :
    (∃ m v, e = DEvent.temp m v) ∨ (∃ m v, e = DEvent.hum m v) := by
  unfold dispComboBranch at h
  split at h
  · split at h
    · simp_all
    · split at h
      · split at h
        all_goals
          first
          | exact Option.noConfusion h
          | (injection h with h
             subst h
             simp at he
             rcases he with he | he
             · exact Or.inl ⟨_, _, he⟩
             · exact Or.inr ⟨_, _, he⟩)
      · simp_all
  · simp_all

theorem mem_innerDispatch {mac : String} {dst : List Nat} {evs : List DEvent}
    (h : innerDispatchChecked mac dst = some evs) {e : DEvent} (he : e ∈ evs) :
    (∃ m v, e = DEvent.temp m v) ∨ (∃ m v, e = DEvent.hum m v) ∨
    (∃ m v, e = DEvent.batp m v) := by
  unfold innerDispatchChecked at h
  split at h
  · exact absurd h (by simp)
  · split at h
    · rename_i e1 e2 e3 e4 h1 h2 h3 h4
      injection h with h
      subst h
      rcases List.mem_append.mp he with hm | hm
      · rcases List.mem_append.mp hm with hm2 | hm2
        · rcases List.mem_append.mp hm2 with hm3 | hm3
          · exact Or.inl (mem_dispTempBranch h1 hm3)
          · exact Or.inr (Or.inl (mem_dispHumBranch h2 hm3))
        · exact Or.inr (Or.inr (mem_dispBatpBranch h3 hm2))
      · rcases mem_dispComboBranch h4 hm with hc | hc
        · exact Or.inl hc
        · exact Or.inr (Or.inl hc)
    · exact absurd h (by simp)

theorem innerDispatch_total (mac : String) (dst : List Nat)
    (h : 7 ≤ dst.length) : (innerDispatchChecked mac dst).isSome := by
  have i0 := idx_eq_getD dst 0 (by omega)
  have i2 := idx_eq_getD dst 2 (by omega)
  have i3 := idx_eq_getD dst 3 (by omega)
  have i4 := idx_eq_getD dst 4 (by omega)
  have i5 := idx_eq_getD dst 5 (by omega)
  have i6 := idx_eq_getD dst 6 (by omega)
  by_cases c4 : (dst[0]?.getD 0) = 4 <;>
  by_cases c6 : (dst[0]?.getD 0) = 6 <;>
  by_cases cA : (dst[0]?.getD 0) = 10 <;>
  by_cases cD : (dst[0]?.getD 0) = 13 <;>
  by_cases c2 : (dst[2]?.getD 0) = 4 <;>
  simp [innerDispatchChecked, dispTempBranch, dispHumBranch,
    dispBatpBranch, dispComboBranch, i0, i2, i3, i4, i5, i6, c4, c6, cA,
    cD, c2]

/-- C6: the first byte of the inner payload selects the record layout —
0x04 publishes only temperature (little-endian tenths at bytes 3–4),
0x06 only humidity, 0x0A only the battery-percent byte 3, 0x0D with
byte 2 equal to 0x04 temperature (bytes 3–4) and humidity (bytes 5–6);
any other tag is silently ignored with no error. -/
theorem c6_inner_dispatch (mac : String) (dst : List Nat) :
    (dst.getD 0 0 = 0x04 → 5 ≤ dst.length →
      innerDispatchChecked mac dst =
        some [DEvent.temp mac
          ((le16 (dst.getD 3 0) (dst.getD 4 0) : ℚ) / 10)]) ∧
    (dst.getD 0 0 = 0x06 → 5 ≤ dst.length →
      innerDispatchChecked mac dst =
        some [DEvent.hum mac
          ((le16 (dst.getD 3 0) (dst.getD 4 0) : ℚ) / 10)]) ∧
    (dst.getD 0 0 = 0x0A → 4 ≤ dst.length →
      innerDispatchChecked mac dst =
        some [DEvent.batp mac (dst.getD 3 0 : ℚ)]) ∧
    (dst.getD 0 0 = 0x0D → dst.getD 2 0 = 0x04 → 7 ≤ dst.length →
      innerDispatchChecked mac dst =
        some [DEvent.temp mac
          ((le16 (dst.getD 3 0) (dst.getD 4 0) : ℚ) / 10),
          DEvent.hum mac ((le16 (dst.getD 5 0) (dst.getD 6 0) : ℚ) / 10)]) ∧
    (dst.getD 0 0 = 0x0D → dst.getD 2 0 ≠ 0x04 → 3 ≤ dst.length →
      innerDispatchChecked mac dst = some []) ∧
    (0 < dst.length → dst.getD 0 0 ≠ 0x04 → dst.getD 0 0 ≠ 0x06 →
      dst.getD 0 0 ≠ 0x0A → dst.getD 0 0 ≠ 0x0D →
      innerDispatchChecked mac dst = some []) := by
  refine ⟨?_, ?_, ?_, ?_, ?_, ?_⟩
  · intro h0 hlen
    rw [List.getD_eq_getElem?_getD] at h0
    simp [innerDispatchChecked, dispTempBranch, dispHumBranch,
      dispBatpBranch, dispComboBranch, idx_eq_getD dst 0 (by omega),
      idx_eq_getD dst 3 (by omega), idx_eq_getD dst 4 (by omega), h0]
  · intro h0 hlen
    rw [List.getD_eq_getElem?_getD] at h0
    simp [innerDispatchChecked, dispTempBranch, dispHumBranch,
      dispBatpBranch, dispComboBranch, idx_eq_getD dst 0 (by omega),
      idx_eq_getD dst 3 (by omega), idx_eq_getD dst 4 (by omega), h0]
  · intro h0 hlen
    rw [List.getD_eq_getElem?_getD] at h0
    simp [innerDispatchChecked, dispTempBranch, dispHumBranch,
      dispBatpBranch, dispComboBranch, idx_eq_getD dst 0 (by omega),
      idx_eq_getD dst 3 (by omega), h0]
  · intro h0 h2 hlen
    rw [List.getD_eq_getElem?_getD] at h0 h2
    simp [innerDispatchChecked, dispTempBranch, dispHumBranch,
      dispBatpBranch, dispComboBranch, idx_eq_getD dst 0 (by omega),
      idx_eq_getD dst 2 (by omega), idx_eq_getD dst 3 (by omega),
      idx_eq_getD dst 4 (by omega), idx_eq_getD dst 5 (by omega),
      idx_eq_getD dst 6 (by omega), h0, h2]
  · intro h0 h2 hlen
    rw [List.getD_eq_getElem?_getD] at h0 h2
    simp [innerDispatchChecked, dispTempBranch, dispHumBranch,
      dispBatpBranch, dispComboBranch, idx_eq_getD dst 0 (by omega),
      idx_eq_getD dst 2 (by omega), h0, h2]
  · intro hlen h4 h6 hA hD
    rw [List.getD_eq_getElem?_getD] at h4 h6 hA hD
    simp [innerDispatchChecked, dispTempBranch, dispHumBranch,
      dispBatpBranch, dispComboBranch, idx_eq_getD dst 0 (by omega),
      h4, h6, hA, hD]

theorem c6_inner_dispatch_witness :
    innerDispatchChecked "M" [0x04, 0, 0, 0x0c, 0x01] =
      some [DEvent.temp "M"
        ((le16 (([0x04, 0, 0, 0x0c, 0x01] : List Nat).getD 3 0)
          (([0x04, 0, 0, 0x0c, 0x01] : List Nat).getD 4 0) : ℚ) / 10)] :=
  (c6_inner_dispatch "M" [0x04, 0, 0, 0x0c, 0x01]).1 (by decide) (by decide)

/-- C5 counterexample: on a concrete 18-byte payload the nonce built by
`decryptData` has exactly 12 bytes, not the 13 bytes the claim
states. -/
theorem c5_counterexample :
    (nonceParts (List.range 18)).map List.length = some 12 ∧
    (nonceParts (List.range 18)).map List.length ≠ some 13 := by decide

/-- C5 (amended): for an at-least-18-byte payload, the nonce handed to
the CCM primitive is exactly 12 bytes (6 + 3 + 3, agreeing with the CCM
nonce-length parameter 12) — the 6 payload bytes at offsets 5–10, then
the 3 sensor-type bytes at offsets 2–4, then the 3 counter bytes at
offsets len−7..len−5 — the ciphertext input is the bytes at offsets
11..len−8 followed by the final 4 tag bytes (the counter is excluded
from the ciphertext but included in the nonce), the associated data is
the single byte 0x11 and the tag length is 4. -/
theorem c5_nonce_ciphertext (data : List Nat) (h : 18 ≤ data.length) :
    ∃ nonce ciphertext,
      nonceParts data = some nonce ∧
      ciphertextParts data = some ciphertext ∧
      nonce.length = 12 ∧
      (∀ i, i < 6 → nonce.getD i 0 = data.getD (5 + i) 0) ∧
      (∀ i, i < 3 → nonce.getD (6 + i) 0 = data.getD (2 + i) 0) ∧
      (∀ i, i < 3 →
        nonce.getD (9 + i) 0 = data.getD (data.length - 7 + i) 0) ∧
      ciphertext.length = data.length - 14 ∧
      (∀ i, i < data.length - 18 →
        ciphertext.getD i 0 = data.getD (11 + i) 0) ∧
      (∀ i, i < 4 →
        ciphertext.getD (data.length - 18 + i) 0 =
          data.getD (data.length - 4 + i) 0) ∧
      ccmAad = [0x11] ∧ ccmTagSize = 4 ∧ ccmNonceSize = 12 := by
  have hA : slc data 5 11 = some ((data.drop 5).take 6) := by
    unfold slc
    rw [if_pos (by omega)]
  have hB : slc data 2 5 = some ((data.drop 2).take 3) := by
    unfold slc
    rw [if_pos (by omega)]
  have hC : slc data (data.length - 7) (data.length - 4) =
      some ((data.drop (data.length - 7)).take 3) := by
    unfold slc
    rw [if_pos (by omega)]
    have h3 : data.length - 4 - (data.length - 7) = 3 := by omega
    rw [h3]
  have hP : slc data 11 (data.length - 7) =
      some ((data.drop 11).take (data.length - 18)) := by
    unfold slc
    rw [if_pos (by omega)]
    have h3 : data.length - 7 - 11 = data.length - 18 := by omega
    rw [h3]
  have hT : slc data (data.length - 4) data.length =
      some ((data.drop (data.length - 4)).take 4) := by
    unfold slc
    rw [if_pos (by omega)]
    have h4 : data.length - (data.length - 4) = 4 := by omega
    rw [h4]
  have hAlen : ((data.drop 5).take 6).length = 6 := by
    simp
    omega
  have hBlen : ((data.drop 2).take 3).length = 3 := by
    simp
    omega
  have hClen : ((data.drop (data.length - 7)).take 3).length = 3 := by
    simp
    omega
  have hPlen : ((data.drop 11).take (data.length - 18)).length =
      data.length - 18 := by
    simp
    omega
  have hTlen : ((data.drop (data.length - 4)).take 4).length = 4 := by
    simp
    omega
  refine ⟨(data.drop 5).take 6 ++ (data.drop 2).take 3 ++
      (data.drop (data.length - 7)).take 3,
    (data.drop 11).take (data.length - 18) ++
      (data.drop (data.length - 4)).take 4,
    ?_, ?_, ?_, ?_, ?_, ?_, ?_, ?_, ?_, rfl, rfl, rfl⟩
  · simp [nonceParts, hA, hB, hC]
  · simp [ciphertextParts, hP, hT]
  · simp only [List.length_append, hAlen, hBlen, hClen]
  · intro i hi
    rw [getD_append_left _ _ _ (by simp [hAlen, hBlen]; omega),
      getD_append_left _ _ _ (by rw [hAlen]; omega),
      getD_drop_take _ _ _ _ hi]
  · intro i hi
    rw [getD_append_left _ _ _ (by simp [hAlen, hBlen]; omega),
      show (6 : Nat) + i = ((data.drop 5).take 6).length + i by rw [hAlen],
      getD_append_right, getD_drop_take _ _ _ _ hi]
  · intro i hi
    rw [show (9 : Nat) + i =
        ((data.drop 5).take 6 ++ (data.drop 2).take 3).length + i by
      simp [hAlen, hBlen],
      getD_append_right, getD_drop_take _ _ _ _ hi]
  · simp only [List.length_append, hPlen, hTlen]
    omega
  · intro i hi
    rw [getD_append_left _ _ _ (by rw [hPlen]; omega),
      getD_drop_take _ _ _ _ (by omega)]
  · intro i hi
    rw [show data.length - 18 + i =
        ((data.drop 11).take (data.length - 18)).length + i by rw [hPlen],
      getD_append_right, getD_drop_take _ _ _ _ hi]

theorem c5_nonce_ciphertext_witness :
    (nonceParts (List.range 20)).isSome := by
  obtain ⟨n, c, hn, -⟩ := c5_nonce_ciphertext (List.range 20) (by simp)
  simp [hn]

theorem registerData_bump_expiry (data : List Nat) (fm : String)
    (rssi : Int) (m : String) (d : Nat)
    (hm : DEvent.bump m d ∈ registerData data fm rssi) : d = ExpiryAtc := by
  unfold registerData at hm
  split at hm
  · split at hm
    · simp [pubEvents] at hm
      exact hm.2
    · simp at hm
  · split at hm
    · split at hm
      · simp [pubEvents] at hm
        exact hm.2
      · simp at hm
    · simp at hm

theorem decryptStep_inl
    {co : List Nat → List Nat → List Nat → List Nat → Option (List Nat)}
    {keys : String → Option (List Nat)} {data : List Nat} {mac : String}
    {b12 : Nat} {evs : List DEvent}
    (h : decryptStep co keys data mac b12 = some (Sum.inl evs)) :
    ∃ msg, evs = [DEvent.log msg] := by
  unfold decryptStep at h
  split at h
  · rcases hs : slc data 11 data.length with - | v <;> rw [hs] at h <;>
      simp at h
  · split at h
    · simp at h
      exact ⟨_, h.symm⟩
    · split at h
      · split at h
        · simp at h
          exact ⟨_, h.symm⟩
        · simp at h
      · exact Option.noConfusion h

theorem decryptPublish_bump_expiry
    {co : List Nat → List Nat → List Nat → List Nat → Option (List Nat)}
    {keys : String → Option (List Nat)} {data : List Nat} {rssi : Int}
    {mac : String} {b12 : Nat} {evs : List DEvent}
    (h : decryptPublish co keys data rssi mac b12 = some evs) :
    (∀ m d, DEvent.bump m d ∈ evs → d = ExpiryStock) ∧
    (∀ m v, DEvent.rssi m v ∈ evs → DEvent.bump m ExpiryStock ∈ evs) := by
  unfold decryptPublish at h
  split at h
  · exact Option.noConfusion h
  · rename_i evs0 hstep
    injection h with h
    subst h
    obtain ⟨msg, hlog⟩ := decryptStep_inl hstep
    subst hlog
    constructor <;> intro m d hm <;> simp at hm
  · split at h
    · exact Option.noConfusion h
    · rename_i dst hstep disp hdisp
      injection h with h
      subst h
      constructor
      · intro m d hm
        simp at hm
        rcases hm with ⟨hmac, hd⟩ | hm
        · exact hd
        · rcases mem_innerDispatch hdisp hm with ⟨m2, v2, he⟩ |
            ⟨m2, v2, he⟩ | ⟨m2, v2, he⟩ <;> simp at he
      · intro m v hm
        simp at hm
        rcases hm with hm | ⟨hmac, hv⟩
        · rcases mem_innerDispatch hdisp hm with ⟨m2, v2, he⟩ |
            ⟨m2, v2, he⟩ | ⟨m2, v2, he⟩ <;> simp at he
        · subst hmac
          simp

theorem decryptData_bump_expiry
    {co : List Nat → List Nat → List Nat → List Nat → Option (List Nat)}
    {keys : String → Option (List Nat)} {data : List Nat} {fm : String}
    {rssi : Int} {evs : List DEvent}
    (h : decryptData co keys data fm rssi = some evs) :
    (∀ m d, DEvent.bump m d ∈ evs → d = ExpiryStock) ∧
    (∀ m v, DEvent.rssi m v ∈ evs → DEvent.bump m ExpiryStock ∈ evs) := by
  unfold decryptData at h
  split at h
  · injection h with h
    subst h
    constructor <;> intro m d hm <;> simp at hm
  · split at h
    · exact Option.noConfusion h
    · split at h
      · injection h with h
        subst h
        constructor <;> intro m d hm <;> simp at hm
      · split at h
        · exact Option.noConfusion h
        · exact decryptPublish_bump_expiry h

/-- C8: the expiry duration is tied to the decode path — `ExpiryAtc` is
25 seconds and every bump performed by the plaintext path
(`registerData`) uses it, with a bump present on every successful
decode; `ExpiryStock` is 25 minutes (1500 s) and every bump performed
by the encrypted path (`decryptData`) uses it, with the bump present
whenever the path published (witnessed by its RSSI event). -/
theorem c8_expiry_per_path
    (co : List Nat → List Nat → List Nat → List Nat → Option (List Nat))
    (keys : String → Option (List Nat)) (data : List Nat) (fm : String)
    (rssi : Int) :
    ExpiryAtc = 25 * 1000000000 ∧
    ExpiryStock = 1500 * 1000000000 ∧
    (∀ m d, DEvent.bump m d ∈ registerData data fm rssi → d = ExpiryAtc) ∧
    (data.length = 13 → (decodeATCData data fm).2 = none →
      DEvent.bump (decodeATCData data fm).1.mac ExpiryAtc ∈
        registerData data fm rssi) ∧
    (data.length = 15 → (decodePVVXData data fm).2 = none →
      DEvent.bump (decodePVVXData data fm).1.mac ExpiryAtc ∈
        registerData data fm rssi) ∧
    (∀ evs, decryptData co keys data fm rssi = some evs →
      (∀ m d, DEvent.bump m d ∈ evs → d = ExpiryStock) ∧
      (∀ m v, DEvent.rssi m v ∈ evs → DEvent.bump m ExpiryStock ∈ evs)) := by
  refine ⟨by norm_num [ExpiryAtc], by norm_num [ExpiryStock],
    fun m d hm => registerData_bump_expiry data fm rssi m d hm, ?_, ?_,
    fun evs h => decryptData_bump_expiry h⟩
  · intro h13 hok
    rcases hd : decodeATCData data fm with ⟨sd, e⟩
    rw [hd] at hok
    simp only at hok
    subst hok
    simp [registerData, h13, hd, pubEvents]
  · intro h15 hok
    rcases hd : decodePVVXData data fm with ⟨sd, e⟩
    rw [hd] at hok
    simp only at hok
    subst hok
    have h13 : data.length ≠ 13 := by omega
    simp [registerData, h13, h15, hd, pubEvents]

theorem c8_expiry_per_path_witness :
    ExpiryAtc = 25 * 1000000000 ∧
    DEvent.bump (decodeATCData scenarioA "4C5957534430").1.mac ExpiryAtc ∈
      registerData scenarioA "4C5957534430" 5 :=
  ⟨(c8_expiry_per_path (fun _ _ _ _ => none) (fun _ => none) [] "" 0).1,
   (c8_expiry_per_path (fun _ _ _ _ => none) (fun _ => none) scenarioA
      "4C5957534430" 5).2.2.2.1 (by decide) (by decide)⟩

theorem revMacBytes_eq (data : List Nat) (h : 11 ≤ data.length) :
    revMacBytes data = some [data.getD 10 0, data.getD 9 0, data.getD 8 0,
      data.getD 7 0, data.getD 6 0, data.getD 5 0] := by
  simp [revMacBytes, idx_eq_getD data 10 (by omega),
    idx_eq_getD data 9 (by omega), idx_eq_getD data 8 (by omega),
    idx_eq_getD data 7 (by omega), idx_eq_getD data 6 (by omega),
    idx_eq_getD data 5 (by omega)]

theorem nonceParts_eq (data : List Nat) (h : 18 ≤ data.length) :
    nonceParts data = some ((data.drop 5).take 6 ++ (data.drop 2).take 3 ++
      (data.drop (data.length - 7)).take 3) := by
  have hA : slc data 5 11 = some ((data.drop 5).take 6) := by
    unfold slc
    rw [if_pos (by omega)]
  have hB : slc data 2 5 = some ((data.drop 2).take 3) := by
    unfold slc
    rw [if_pos (by omega)]
  have hC : slc data (data.length - 7) (data.length - 4) =
      some ((data.drop (data.length - 7)).take 3) := by
    unfold slc
    rw [if_pos (by omega)]
    have h3 : data.length - 4 - (data.length - 7) = 3 := by omega
    rw [h3]
  simp [nonceParts, hA, hB, hC]

theorem ciphertextParts_eq (data : List Nat) (h : 18 ≤ data.length) :
    ciphertextParts data = some ((data.drop 11).take (data.length - 18) ++
      (data.drop (data.length - 4)).take 4) := by
  have hP : slc data 11 (data.length - 7) =
      some ((data.drop 11).take (data.length - 18)) := by
    unfold slc
    rw [if_pos (by omega)]
    have h3 : data.length - 7 - 11 = data.length - 18 := by omega
    rw [h3]
  have hT : slc data (data.length - 4) data.length =
      some ((data.drop (data.length - 4)).take 4) := by
    unfold slc
    rw [if_pos (by omega)]
    have h4 : data.length - (data.length - 4) = 4 := by omega
    rw [h4]
  simp [ciphertextParts, hP, hT]

theorem slc_tail_eq (data : List Nat) (h : 11 ≤ data.length) :
    slc data 11 data.length =
      some ((data.drop 11).take (data.length - 11)) := by
  unfold slc
  rw [if_pos (by omega)]

theorem decryptStep_isSome
    (co : List Nat → List Nat → List Nat → List Nat → Option (List Nat))
    (keys : String → Option (List Nat)) (data : List Nat) (mac : String)
    (b12 : Nat) (h : 18 ≤ data.length) :
    (decryptStep co keys data mac b12).isSome := by
  unfold decryptStep
  split
  · rw [slc_tail_eq data (by omega)]
    simp
  · rcases keys mac with - | key
    · simp
    · rw [ciphertextParts_eq data h, nonceParts_eq data h]
      simp only
      rcases co key _ _ ccmAad with - | dst <;> simp

theorem decryptStep_inr_length
    {co : List Nat → List Nat → List Nat → List Nat → Option (List Nat)}
    {keys : String → Option (List Nat)} {data : List Nat} {mac : String}
    {b12 : Nat} {dst : List Nat} (h : 18 ≤ data.length)
    (hlaw : ∀ k n c a d, co k n c a = some d → d.length + 4 = c.length)
    (hinr : decryptStep co keys data mac b12 = some (Sum.inr dst)) :
    (b12 = 0x10 ∧ dst.length = data.length - 11) ∨
    (b12 ≠ 0x10 ∧ dst.length = data.length - 18) := by
  unfold decryptStep at hinr
  split at hinr
  · rename_i hb
    rw [slc_tail_eq data (by omega)] at hinr
    simp at hinr
    left
    refine ⟨hb, ?_⟩
    rw [← hinr]
    simp
  · rename_i hb
    right
    refine ⟨hb, ?_⟩
    rcases hk : keys mac with - | key
    · rw [hk] at hinr
      simp at hinr
    · rw [hk, ciphertextParts_eq data h, nonceParts_eq data h] at hinr
      simp only at hinr
      rcases hco : co key ((data.drop 5).take 6 ++ (data.drop 2).take 3 ++
          (data.drop (data.length - 7)).take 3)
          ((data.drop 11).take (data.length - 18) ++
            (data.drop (data.length - 4)).take 4) ccmAad with - | d0
      · rw [hco] at hinr
        simp at hinr
      · rw [hco] at hinr
        simp at hinr
        subst hinr
        have := hlaw _ _ _ _ _ hco
        simp only [List.length_append, List.length_take,
          List.length_drop] at this
        omega

/-- C10 counterexample: an 18-byte encrypted payload that passes the
address check and the key lookup forces the CCM ciphertext input to
exactly 4 bytes (the bare tag), so a successful authentication yields a
0-byte inner payload and the subsequent `dst[0]` read is out of
bounds — `decryptData` panics (`none`) even though the payload met the
18-byte guard.  The oracle behaves like CCM with a 4-byte tag: it
returns the ciphertext minus the tag. -/
theorem c10_counterexample :
    (ciphertextParts (List.replicate 18 0)).map List.length = some 4 ∧
    decryptData (fun _ _ c _ => some (c.drop 4))
      (fun _ => some (List.replicate 16 0)) (List.replicate 18 0)
      "000000000000" 0 = none := by decide

/-- C10 (amended): with a CCM primitive whose successful plaintexts are
4 bytes shorter than their ciphertext input, every payload carrying the
0x10 fast-path marker is handled without any out-of-bounds access, and
so is every payload of at least 25 bytes; only an 18–24-byte payload
whose decryption succeeds can drive an inner access out of bounds. -/
theorem c10_bounds
    (co : List Nat → List Nat → List Nat → List Nat → Option (List Nat))
    (keys : String → Option (List Nat)) (data : List Nat) (fm : String)
    (rssi : Int)
    (hlaw : ∀ k n c a d, co k n c a = some d → d.length + 4 = c.length) :
    (data.getD 12 0 = 0x10 → (decryptData co keys data fm rssi).isSome) ∧
    (25 ≤ data.length → (decryptData co keys data fm rssi).isSome) := by
  have main : ∀ hcase : data.getD 12 0 = 0x10 ∨ 25 ≤ data.length,
      (decryptData co keys data fm rssi).isSome := by
    intro hcase
    unfold decryptData
    split
    · simp
    · rename_i hlen
      push_neg at hlen
      rw [revMacBytes_eq data (by omega)]
      simp only
      split
      · simp
      · rw [idx_eq_getD data 12 (by omega)]
        simp only
        unfold decryptPublish
        rcases hstep : decryptStep co keys data
            (bytesHex [data.getD 10 0, data.getD 9 0, data.getD 8 0,
              data.getD 7 0, data.getD 6 0, data.getD 5 0])
            (data.getD 12 0) with - | step
        · have hs := decryptStep_isSome co keys data
            (bytesHex [data.getD 10 0, data.getD 9 0, data.getD 8 0,
              data.getD 7 0, data.getD 6 0, data.getD 5 0])
            (data.getD 12 0) (by omega)
          rw [hstep] at hs
          simp at hs
        · cases step with
          | inl evs => simp
          | inr dst =>
            have hd := decryptStep_inr_length (by omega) hlaw hstep
            have h7 : 7 ≤ dst.length := by
              rcases hd with ⟨hb, hl⟩ | ⟨hb, hl⟩
              · omega
              · rcases hcase with hc | hc
                · exact absurd hc hb
                · omega
            have ht := innerDispatch_total
              (bytesHex [data.getD 10 0, data.getD 9 0, data.getD 8 0,
                data.getD 7 0, data.getD 6 0, data.getD 5 0]) dst h7
            rcases hdisp : innerDispatchChecked
                (bytesHex [data.getD 10 0, data.getD 9 0, data.getD 8 0,
                  data.getD 7 0, data.getD 6 0, data.getD 5 0]) dst
              with - | disp
            · rw [hdisp] at ht
              simp at ht
            · simp only [List.getD_eq_getElem?_getD] at hdisp
              simp [hdisp]
  exact ⟨fun hc => main (Or.inl hc), fun hc => main (Or.inr hc)⟩

theorem c10_bounds_witness :
    (decryptData (fun _ _ _ _ => none) (fun _ => none)
      (List.replicate 25 0) "" 0).isSome :=
  (c10_bounds (fun _ _ _ _ => none) (fun _ => none) (List.replicate 25 0)
    "" 0 (fun _ _ _ _ _ hd => Option.noConfusion hd)).2 (by decide)
